import Mathlib

/-!
Shallow embedding of the dext image-layer extraction pipeline
(src/main.rs) together with proofs about its behaviour.

The pipeline: validate the output directory, create a scratch
directory, acquire a tar archive of a docker image (either streamed
from the daemon or a caller-supplied file), unpack it into the scratch
area, read `manifest.json`, unpack each layer archive in manifest
order into the output directory, and optionally synthesize an
entrypoint script from the image configuration.

External effects (filesystem, docker daemon, JSON parsing) are
modelled by oracles collected in a `World` record; every pipeline
function returns the list of effect `Event`s it performs alongside its
`Except`-style result, mirroring the `anyhow::Result` control flow of
the source (panics via `expect` are modelled as errors as well, since
both abort the run with a message).
-/

namespace Dext

/-- File contents (the bytes of a file), modelled abstractly as strings. -/
abbrev Content := String

/-- A tar archive: the ordered list of its entries, each a relative
path together with the file content it writes.  Later entries
overwrite earlier ones at the same path, which is exactly the `tar`
extraction semantics `extract_layers` relies on. -/
abbrev Tar := List (String × Content)

/-- A directory's contents: a partial map from relative paths to file
contents. -/
abbrev Dir := String → Option Content

/-- The empty directory. -/
def dEmpty : Dir := fun _ => none

/-- Extracting one tar entry into a directory: the entry's path now
maps to the entry's content, everything else is unchanged. -/
def applyEntry (d : Dir) (e : String × Content) : Dir :=
  fun p => if p = e.1 then some e.2 else d p

/-- `archive.unpack(dest)`: extract all entries of a tar archive into
a directory, in the archive's internal entry order. -/
def unpack (t : Tar) (d : Dir) : Dir := t.foldl applyEntry d

/-- The `for layer in manifest.layers` loop of `extract_layers`,
restricted to its effect on the output directory: unpack each layer in
the given order. -/
def compositeLayers (layers : List Tar) (d : Dir) : Dir :=
  layers.foldl (fun acc t => unpack t acc) d

/-- Modelled from the spec's words (the hand-computed union used to
state the compositor's correctness): the union of the layers' contents
in which a later layer's file overrides any earlier layer's file at
the same relative path; paths written by no layer keep the base
directory's content. -/
def unionOfLayers (layers : List Tar) (base : Dir) : Dir :=
  fun p =>
    match (layers.flatten).reverse.find? (fun e => e.1 == p) with
    | some e => some e.2
    | none => base p

theorem unpack_lookup (t : Tar) (d : Dir) (p : String) :
    unpack t d p =
      match t.reverse.find? (fun e => e.1 == p) with
      | some e => some e.2
      | none => d p := by
  induction t generalizing d with
  | nil => rfl
  | cons e rest ih =>
    show unpack rest (applyEntry d e) p = _
    rw [ih]
    have hrev : (e :: rest).reverse = rest.reverse ++ [e] := by simp
    rw [hrev, List.find?_append]
    cases hf : rest.reverse.find? (fun x => x.1 == p) with
    | some f => rfl
    | none =>
      by_cases hp : e.1 = p
      · have hb : (e.1 == p) = true := by simp [hp]
        simp [List.find?, hb, applyEntry, hp.symm]
      · have hb : (e.1 == p) = false := beq_false_of_ne hp
        have hp2 : ¬ (p = e.1) := fun h => hp h.symm
        simp [List.find?, hb, applyEntry, hp2]

theorem compositeLayers_eq_flatten (layers : List Tar) (d : Dir) :
    compositeLayers layers d = unpack layers.flatten d := by
  induction layers generalizing d with
  | nil => rfl
  | cons t rest ih =>
    show compositeLayers rest (unpack t d) = _
    rw [ih]
    show unpack rest.flatten (unpack t d) = unpack (t :: rest).flatten d
    unfold unpack
    rw [List.flatten_cons, List.foldl_append]

theorem compositeLayers_lookup (layers : List Tar) (d : Dir) (p : String) :
    compositeLayers layers d p = unionOfLayers layers d p := by
  rw [compositeLayers_eq_flatten, unpack_lookup]
  rfl

/-- The `Manifest` record of src/main.rs: the relative name of the
configuration blob and the ordered list of layer archive names. -/
structure Manifest where
  config : String
  layers : List String
deriving Repr, DecidableEq

/-- The nested `Config` record of src/main.rs (fields `env`, `cmd`,
`working_dir`, aliased from the capitalized JSON keys). -/
structure Config where
  env : List String
  cmd : List String
  working_dir : String
deriving Repr, DecidableEq

/-- The `ImageConfig` record of src/main.rs: a wrapper holding the
nested `config` object. -/
structure ImageConfig where
  config : Config
deriving Repr, DecidableEq

/-- The generated entrypoint script as it ends up on disk: its lines
and its permission mode. -/
structure ScriptFile where
  lines : List String
  mode : Nat
deriving Repr, DecidableEq

/-- The `Opts` record of src/main.rs (the parsed command line). -/
structure Opts where
  image_name : Option String
  image_version : String
  image_file : Option String
  out_path : String
  write_entrypoint : Bool
  entrypoint : String
deriving Repr, DecidableEq

/-- The observable effects the pipeline performs, in the order it
performs them.  Every pipeline function below returns its event trace
alongside its result. -/
inductive Event where
  | checkOutDir
  | createTmp
  | dockerConnect
  | inspectImage (image : String)
  | exportImage (image : String)
  | createTarFile (path : String)
  | writeChunk (data : Content)
  | flush
  | openFile (path : String)
  | unpackArchive (dest : String)
  | removeFile (path : String)
  | readManifest
  | unpackLayer (name : String)
  | openConfig (path : String)
  | createEntrypoint (path : String)
  | setPermissions (path : String) (mode : Nat)
  | cleanupTmp
deriving Repr, DecidableEq

/-- Oracles for everything outside the program's own logic: filesystem
operations succeed or fail, the docker daemon answers, JSON documents
parse or not.  Each field corresponds to one fallible external step of
src/main.rs. -/
structure World where
  outIsDir : Bool
  tmpCreateOk : Bool
  outInit : Dir
  dockerConnectOk : Bool
  inspectOk : String → Bool
  createTarOk : Bool
  exportStream : String → List (Except String Content)
  writeOk : Nat → Bool
  flushOk : Nat → Bool
  openTarOk : String → Bool
  unpackOuterOk : Bool
  removeOk : Bool
  manifestOpenOk : Bool
  manifestJson : Option (List Manifest)
  layerOpenOk : String → Bool
  layerTar : String → Option Tar
  configOf : String → Option ImageConfig
  createEntryOk : Bool
  setPermsOk : Bool

/-- `read_manifest` of src/main.rs, after the `serde_json` step (the
input is the parsed `Vec<Manifest>`): fail unless the vector has
exactly one entry, then pop that entry. -/
def read_manifest (manifests : List Manifest) : Except String Manifest :=
  if manifests.length = 1 then
    match manifests.getLast? with
    | some m => Except.ok m
    | none => Except.error "we just checked the length"
  else
    Except.error
      ("the manifest contains " ++ toString manifests.length ++ " entries, expected 1")

/-- `read_config` of src/main.rs, after the `serde_json` step (the
input is the parse result for the configuration blob). -/
def read_config (parsed : Option ImageConfig) : Except String ImageConfig :=
  match parsed with
  | some c => Except.ok c
  | none => Except.error "could not read or parse image config"

/-- The lines `write_entrypoint` of src/main.rs writes, in order: the
shebang, one line per environment entry verbatim, a `cd` line for the
working directory, and one line per command token verbatim. -/
def entrypoint_lines (c : Config) : List String :=
  "#!/bin/bash" :: (c.env ++ ("cd " ++ c.working_dir) :: c.cmd)

/-- `image_name.contains(":")` of src/main.rs: does the name contain
the version separator character? -/
def containsColon (s : String) : Bool := s.data.any (fun c => c == ':')

/-- The `byte_stream.for_each` loop of `fetch_archive`: consume the
export stream chunk by chunk, writing each chunk and flushing after
it; a failed stream item, a failed write, or a failed flush aborts
with the corresponding `expect` message. -/
def streamLoop (wOk fOk : Nat → Bool) :
    List (Except String Content) → Nat → List Event × Except String Unit
  | [], _ => ([], Except.ok ())
  | c :: rest, i =>
    match c with
    | Except.error _ => ([], Except.error "error streaming data from docker")
    | Except.ok data =>
      if wOk i then
        if fOk i then
          let res := streamLoop wOk fOk rest (i + 1)
          (Event.writeChunk data :: Event.flush :: res.1, res.2)
        else ([Event.writeChunk data], Except.error "could not flush")
      else ([], Except.error "error writing file to disk")

/-- `fetch_archive` of src/main.rs: connect to the daemon, inspect the
image to confirm it exists, request the export stream, create the
destination tar file in the scratch area, and run the chunk-writing
loop; returns the path of the written tar file. -/
def fetch_archive (w : World) (image : String) : List Event × Except String String :=
  if w.dockerConnectOk then
    if w.inspectOk image then
      if w.createTarOk then
        let res := streamLoop w.writeOk w.flushOk (w.exportStream image) 0
        ([Event.dockerConnect, Event.inspectImage image, Event.exportImage image,
          Event.createTarFile ("TMP/" ++ image ++ ".tar")] ++ res.1,
         res.2.map (fun _ => "TMP/" ++ image ++ ".tar"))
      else
        ([Event.dockerConnect, Event.inspectImage image, Event.exportImage image,
          Event.createTarFile ("TMP/" ++ image ++ ".tar")],
         Except.error "could not create tar file")
    else
      ([Event.dockerConnect, Event.inspectImage image],
       Except.error ("image not found: " ++ image))
  else
    ([Event.dockerConnect], Except.error "failed to connect to docker daemon")

/-- The `for layer in manifest.layers` loop of `extract_layers`: open
each named layer archive in the scratch area and unpack it into the
output directory, in the given order, stopping at the first failure. -/
def applyLayers (openOk : String → Bool) (getTar : String → Option Tar) :
    List String → Dir → List Event × Except String Dir
  | [], d => ([], Except.ok d)
  | n :: rest, d =>
    if openOk n then
      match getTar n with
      | some t =>
        let res := applyLayers openOk getTar rest (unpack t d)
        (Event.openFile ("TMP/" ++ n) :: Event.unpackLayer n :: res.1, res.2)
      | none => ([Event.openFile ("TMP/" ++ n)], Except.error ("failed to unpack layer " ++ n))
    else ([Event.openFile ("TMP/" ++ n)], Except.error ("could not open layer " ++ n))

/-- `extract_layers` of src/main.rs: open the acquired tar file,
unpack it into the scratch area, remove the tar file, read
`manifest.json`, and unpack every named layer archive in manifest
order into the output directory; returns the manifest together with
the resulting output-directory contents. -/
def extract_layers (w : World) (tarPath : String) (d0 : Dir) :
    List Event × Except String (Manifest × Dir) :=
  if w.openTarOk tarPath then
    if w.unpackOuterOk then
      if w.removeOk then
        if w.manifestOpenOk then
          match w.manifestJson with
          | none =>
            ([Event.openFile tarPath, Event.unpackArchive "TMP", Event.removeFile tarPath,
              Event.openFile "TMP/manifest.json"],
             Except.error "could not parse manifest json")
          | some ms =>
            match read_manifest ms with
            | Except.error e =>
              ([Event.openFile tarPath, Event.unpackArchive "TMP", Event.removeFile tarPath,
                Event.openFile "TMP/manifest.json", Event.readManifest],
               Except.error e)
            | Except.ok m =>
              let res := applyLayers w.layerOpenOk w.layerTar m.layers d0
              ([Event.openFile tarPath, Event.unpackArchive "TMP", Event.removeFile tarPath,
                Event.openFile "TMP/manifest.json", Event.readManifest] ++ res.1,
               res.2.map (fun d => (m, d)))
        else
          ([Event.openFile tarPath, Event.unpackArchive "TMP", Event.removeFile tarPath,
            Event.openFile "TMP/manifest.json"],
           Except.error "could not open manifest.json")
      else
        ([Event.openFile tarPath, Event.unpackArchive "TMP", Event.removeFile tarPath],
         Except.error ("could not remove " ++ tarPath))
    else
      ([Event.openFile tarPath, Event.unpackArchive "TMP"],
       Except.error "failed to unpack archive")
  else ([Event.openFile tarPath], Except.error ("could not open " ++ tarPath))

/-- `write_entrypoint` of src/main.rs: open and parse the
configuration blob named by the manifest, create the entrypoint file
in the output directory, write the script lines, and set the file's
permission mode to `0o755`. -/
def write_entrypoint (w : World) (m : Manifest) (entry : String) :
    List Event × Except String ScriptFile :=
  match read_config (w.configOf m.config) with
  | Except.error e => ([Event.openConfig m.config], Except.error e)
  | Except.ok cfg =>
    if w.createEntryOk then
      if w.setPermsOk then
        ([Event.openConfig m.config, Event.createEntrypoint entry,
          Event.setPermissions entry 0o755],
         Except.ok ⟨entrypoint_lines cfg.config, 0o755⟩)
      else
        ([Event.openConfig m.config, Event.createEntrypoint entry],
         Except.error "failed to set permissions")
    else
      ([Event.openConfig m.config], Except.error ("failed to create " ++ entry))

/-- The tail of `main` after the tar path has been determined: run
`extract_layers` into the output directory and, when the
`write_entrypoint` flag is set, synthesize the entrypoint script. -/
def afterAcquire (o : Opts) (w : World) (tarPath : String) (pre : List Event) :
    List Event × Except String Unit :=
  let res := extract_layers w tarPath w.outInit
  match res.2 with
  | Except.error e => (pre ++ res.1, Except.error e)
  | Except.ok mres =>
    if o.write_entrypoint then
      let res2 := write_entrypoint w mres.1 o.entrypoint
      (pre ++ res.1 ++ res2.1, res2.2.map (fun _ => ()))
    else (pre ++ res.1, Except.ok ())

/-- The `match (opts.image_name, opts.image_file)` of `main` and
everything after it: reject both/neither, reject an image name
containing a version separator, fetch from the daemon or use the
caller-supplied archive path as-is, then extract. -/
def mainBody (o : Opts) (w : World) : List Event × Except String Unit :=
  match o.image_name, o.image_file with
  | some n, none =>
    if containsColon n then
      ([], Except.error
        "image name should be the name only - use the --version flag to specify a version.")
    else
      let res := fetch_archive w (n ++ ":" ++ o.image_version)
      match res.2 with
      | Except.error e => (res.1, Except.error e)
      | Except.ok tarPath =>
        let res2 := afterAcquire o w tarPath res.1
        (res2.1, res2.2)
  | none, some p => afterAcquire o w p []
  | some _, some _ =>
    ([], Except.error "you cannot specify both an image name as well as an image file.")
  | none, none =>
    ([], Except.error "you must specify either an image name or an archive path.")

/-- `main` of src/main.rs: check that the output path is a directory,
create the scratch directory, run the body, and (mirroring the `Drop`
of `TempDir`, which runs on every exit path out of `main`, early
returns and unwinding panics included) remove the scratch directory
at the end. -/
def main (o : Opts) (w : World) : List Event × Except String Unit :=
  if w.outIsDir then
    if w.tmpCreateOk then
      let res := mainBody o w
      (Event.checkOutDir :: Event.createTmp :: (res.1 ++ [Event.cleanupTmp]), res.2)
    else ([Event.checkOutDir], Except.error "could not create temp dir")
  else
    ([Event.checkOutDir],
     Except.error ("location specified is not a directory: " ++ o.out_path))

/-- The layer names unpacked by a trace, in the order they were
unpacked. -/
def layerEventsOf (tr : List Event) : List String :=
  tr.filterMap (fun e => match e with | Event.unpackLayer n => some n | _ => none)

/-- The tar archives a scratch area holds for a list of layer names
(skipping names whose archive is missing or unreadable). -/
def tarsOf (getTar : String → Option Tar) (names : List String) : List Tar :=
  names.filterMap getTar

theorem applyLayers_ok (openOk : String → Bool) (getTar : String → Option Tar) :
    ∀ (names : List String) (d0 : Dir) (tr : List Event) (d : Dir),
      applyLayers openOk getTar names d0 = (tr, Except.ok d) →
      layerEventsOf tr = names ∧ d = compositeLayers (tarsOf getTar names) d0 := by
  intro names
  induction names with
  | nil =>
    intro d0 tr d h
    simp only [applyLayers, Prod.mk.injEq] at h
    obtain ⟨h1, h2⟩ := h
    cases h2
    exact ⟨by rw [← h1]; rfl, rfl⟩
  | cons n rest ih =>
    intro d0 tr d h
    unfold applyLayers at h
    by_cases ho : openOk n = true
    · rw [if_pos ho] at h
      cases hg : getTar n with
      | none => rw [hg] at h; simp at h
      | some t =>
        rw [hg] at h
        simp only [Prod.mk.injEq] at h
        obtain ⟨h1, h2⟩ := h
        have hrec := ih (unpack t d0) (applyLayers openOk getTar rest (unpack t d0)).1 d
          (by rw [← h2])
        constructor
        · rw [← h1]
          simp only [layerEventsOf, List.filterMap_cons]
          exact congrArg (n :: ·) hrec.1
        · have hts : tarsOf getTar (n :: rest) = t :: tarsOf getTar rest := by
            simp [tarsOf, List.filterMap_cons, hg]
          rw [hts]
          exact hrec.2
    · rw [if_neg ho] at h
      simp at h

/-- Claim C1: for every parsed manifest with layer list L1..Ln,
`extract_layers` unpacks the layer archives strictly in manifest order
(the trace's unpack-layer events are exactly the manifest's layer list,
one at a time, sequentially), and the final output directory content
equals the union of the layers' contents in which a later layer's file
overrides any earlier layer's file at the same relative path. -/
theorem extract_layers_ordered_union (w : World) (tarPath : String) (d0 : Dir)
    (tr : List Event) (m : Manifest) (d : Dir)
    (h : extract_layers w tarPath d0 = (tr, Except.ok (m, d))) :
    layerEventsOf tr = m.layers ∧
    ∀ p, d p = unionOfLayers (tarsOf w.layerTar m.layers) d0 p := by
  unfold extract_layers at h
  by_cases h1 : w.openTarOk tarPath = true
  swap
  · rw [if_neg h1] at h; simp at h
  rw [if_pos h1] at h
  by_cases h2 : w.unpackOuterOk = true
  swap
  · rw [if_neg h2] at h; simp at h
  rw [if_pos h2] at h
  by_cases h3 : w.removeOk = true
  swap
  · rw [if_neg h3] at h; simp at h
  rw [if_pos h3] at h
  by_cases h4 : w.manifestOpenOk = true
  swap
  · rw [if_neg h4] at h; simp at h
  rw [if_pos h4] at h
  cases hms : w.manifestJson with
  | none => rw [hms] at h; simp at h
  | some ms =>
    simp only [hms] at h
    cases hrm : read_manifest ms with
    | error e => simp only [hrm] at h; simp at h
    | ok m0 =>
      simp only [hrm] at h
      simp only [Prod.mk.injEq] at h
      obtain ⟨htr, hres⟩ := h
      cases hap : (applyLayers w.layerOpenOk w.layerTar m0.layers d0).2 with
      | error e => rw [hap] at hres; simp [Except.map] at hres
      | ok dd =>
        rw [hap] at hres
        simp only [Except.map, Except.ok.injEq, Prod.mk.injEq] at hres
        obtain ⟨hm, hd⟩ := hres
        cases hm
        cases hd
        have hrec := applyLayers_ok w.layerOpenOk w.layerTar m.layers d0
          (applyLayers w.layerOpenOk w.layerTar m.layers d0).1 d (by rw [← hap])
        constructor
        · rw [← htr]
          simp only [layerEventsOf, List.filterMap_append, List.filterMap_cons,
            List.filterMap_nil]
          exact hrec.1
        · intro p
          rw [hrec.2, compositeLayers_lookup]

/-- Example manifest used by the concrete witnesses. -/
def mW : Manifest := ⟨"cfg.json", ["a.tar", "b.tar"]⟩

/-- Example image configuration used by the concrete witnesses. -/
def cfgW : ImageConfig := ⟨⟨["FOO=bar"], ["/bin/echo", "hi"], "/app"⟩⟩

/-- Example base layer: writes files `f` and `g`. -/
def tarA : Tar := [("f", "va"), ("g", "ga")]

/-- Example top layer: overwrites file `f`. -/
def tarB : Tar := [("f", "vb")]

/-- A world in which every external operation succeeds, the manifest
names two layers and the top layer overwrites a file of the base
layer. -/
def wAll : World where
  outIsDir := true
  tmpCreateOk := true
  outInit := dEmpty
  dockerConnectOk := true
  inspectOk := fun _ => true
  createTarOk := true
  exportStream := fun _ => []
  writeOk := fun _ => true
  flushOk := fun _ => true
  openTarOk := fun _ => true
  unpackOuterOk := true
  removeOk := true
  manifestOpenOk := true
  manifestJson := some [mW]
  layerOpenOk := fun _ => true
  layerTar := fun n => if n = "a.tar" then some tarA else if n = "b.tar" then some tarB else none
  configOf := fun _ => some cfgW
  createEntryOk := true
  setPermsOk := true

/-- The directory produced by unpacking the two example layers in
manifest order. -/
def dW : Dir := unpack tarB (unpack tarA dEmpty)

/-- Witness for claim C1: on the concrete two-layer example the layers
are unpacked in manifest order and the overwritten file holds the top
layer's content. -/
theorem extract_layers_ordered_union_witness :
    layerEventsOf (extract_layers wAll "t.tar" dEmpty).1 = ["a.tar", "b.tar"] ∧
    dW "f" = some "vb" ∧ dW "g" = some "ga" := by
  have h : extract_layers wAll "t.tar" dEmpty =
      ([Event.openFile "t.tar", Event.unpackArchive "TMP", Event.removeFile "t.tar",
        Event.openFile "TMP/manifest.json", Event.readManifest,
        Event.openFile "TMP/a.tar", Event.unpackLayer "a.tar",
        Event.openFile "TMP/b.tar", Event.unpackLayer "b.tar"],
       Except.ok (mW, dW)) := by rfl
  have H := extract_layers_ordered_union wAll "t.tar" dEmpty _ mW dW h
  refine ⟨by rw [h]; exact H.1, (H.2 "f").trans (by rfl), (H.2 "g").trans (by rfl)⟩

/-- Claim C2: for every manifest document parsed as a JSON array,
`read_manifest` returns the single `Manifest` record when the array
has length exactly 1, and fails with a descriptive count-mismatch
error (never silently picking an entry) whenever the array length is 0
or 2 or more. -/
theorem read_manifest_exactly_one (ms : List Manifest) :
    (∀ m, ms = [m] → read_manifest ms = Except.ok m) ∧
    (ms.length ≠ 1 →
      read_manifest ms =
        Except.error
          ("the manifest contains " ++ toString ms.length ++ " entries, expected 1")) := by
  constructor
  · rintro m rfl; rfl
  · intro h
    unfold read_manifest
    rw [if_neg h]

/-- Witness for claim C2: a one-element array yields its entry, empty
and two-element arrays yield the count-mismatch error. -/
theorem read_manifest_exactly_one_witness :
    read_manifest [mW] = Except.ok mW ∧
    read_manifest ([] : List Manifest) =
      Except.error "the manifest contains 0 entries, expected 1" ∧
    read_manifest [mW, mW] =
      Except.error "the manifest contains 2 entries, expected 1" := by
  refine ⟨(read_manifest_exactly_one [mW]).1 mW rfl, ?_, ?_⟩
  · exact (read_manifest_exactly_one ([] : List Manifest)).2 (by decide)
  · exact (read_manifest_exactly_one [mW, mW]).2 (by decide)

/-- Claim C3: for every `ImageConfig` with environment entries `env`,
working directory `wd` and command tokens `cmd`, `write_entrypoint`
writes a script whose lines are, in order: one shebang line, each env
entry verbatim, one line changing directory to `wd`, then each command
token verbatim as its own separate line; and after writing, the file's
permission mode is set to `0o755` (the set-permissions event follows
the file-creation event). -/
theorem write_entrypoint_script (w : World) (m : Manifest) (entry : String)
    (cfg : ImageConfig) (hc : w.configOf m.config = some cfg)
    (h1 : w.createEntryOk = true) (h2 : w.setPermsOk = true) :
    write_entrypoint w m entry =
      ([Event.openConfig m.config, Event.createEntrypoint entry,
        Event.setPermissions entry 0o755],
       Except.ok
         ⟨"#!/bin/bash" ::
            (cfg.config.env ++ ("cd " ++ cfg.config.working_dir) :: cfg.config.cmd),
          0o755⟩) := by
  unfold write_entrypoint read_config
  rw [hc]
  simp [h1, h2, entrypoint_lines]

/-- Witness for claim C3: the concrete configuration from the spec's
test example yields exactly the expected script lines and mode 493
(0o755). -/
theorem write_entrypoint_script_witness :
    write_entrypoint wAll mW "entrypoint.sh" =
      ([Event.openConfig "cfg.json", Event.createEntrypoint "entrypoint.sh",
        Event.setPermissions "entrypoint.sh" 493],
       Except.ok ⟨["#!/bin/bash", "FOO=bar", "cd /app", "/bin/echo", "hi"], 493⟩) := by
  exact write_entrypoint_script wAll mW "entrypoint.sh" cfgW rfl rfl rfl

theorem openFile_mem_extract (w : World) (tp : String) (d0 : Dir) :
    Event.openFile tp ∈ (extract_layers w tp d0).1 := by
  unfold extract_layers
  split_ifs <;> try simp
  cases w.manifestJson with
  | none => simp
  | some ms =>
    cases hrm : read_manifest ms with
    | error e => simp [hrm]
    | ok m => simp [hrm]

theorem dockerConnect_mem_fetch (w : World) (image : String) :
    Event.dockerConnect ∈ (fetch_archive w image).1 := by
  unfold fetch_archive
  split_ifs <;> simp

theorem openFile_mem_afterAcquire (o : Opts) (w : World) (tp : String) (pre : List Event) :
    Event.openFile tp ∈ (afterAcquire o w tp pre).1 := by
  unfold afterAcquire
  cases hres : (extract_layers w tp w.outInit).2 with
  | error e =>
    simp only [hres]
    simp [openFile_mem_extract w tp w.outInit]
  | ok mres =>
    simp only [hres]
    by_cases he : o.write_entrypoint = true <;>
      simp [he, openFile_mem_extract w tp w.outInit]

theorem mem_pre_afterAcquire (o : Opts) (w : World) (tp : String) (pre : List Event)
    (x : Event) (hx : x ∈ pre) : x ∈ (afterAcquire o w tp pre).1 := by
  unfold afterAcquire
  cases hres : (extract_layers w tp w.outInit).2 with
  | error e =>
    simp only [hres]
    simp [hx]
  | ok mres =>
    simp only [hres]
    by_cases he : o.write_entrypoint = true <;> simp [he, hx]

/-- Claim C4: the run proceeds to acquisition only when exactly one of
the image reference and the local archive path is supplied.  Supplying
both or neither yields a fatal usage error with nothing acquired or
unpacked (the whole trace is just the directory check, scratch
creation and scratch cleanup); supplying exactly one proceeds to
acquisition (the caller-supplied archive is opened, resp. the daemon
is contacted). -/
theorem main_arg_validation (o : Opts) (w : World)
    (hdir : w.outIsDir = true) (htmp : w.tmpCreateOk = true) :
    (o.image_name = none → o.image_file = none →
      main o w = ([Event.checkOutDir, Event.createTmp, Event.cleanupTmp],
        Except.error "you must specify either an image name or an archive path.")) ∧
    (∀ n p, o.image_name = some n → o.image_file = some p →
      main o w = ([Event.checkOutDir, Event.createTmp, Event.cleanupTmp],
        Except.error "you cannot specify both an image name as well as an image file.")) ∧
    (∀ p, o.image_name = none → o.image_file = some p →
      Event.openFile p ∈ (main o w).1) ∧
    (∀ n, o.image_name = some n → o.image_file = none → containsColon n = false →
      Event.dockerConnect ∈ (main o w).1) := by
  refine ⟨?_, ?_, ?_, ?_⟩
  · intro hn hf
    simp [main, mainBody, hdir, htmp, hn, hf]
  · intro n p hn hf
    simp [main, mainBody, hdir, htmp, hn, hf]
  · intro p hn hf
    simp only [main, hdir, htmp, if_true, mainBody, hn, hf]
    simp [openFile_mem_afterAcquire]
  · intro n hn hf hc
    simp only [main, hdir, htmp, if_true, mainBody, hn, hf, hc, Bool.false_eq_true,
      if_false]
    cases hres : (fetch_archive w (n ++ ":" ++ o.image_version)).2 with
    | error e =>
      simp only [hres]
      simp [dockerConnect_mem_fetch]
    | ok tp =>
      simp only [hres]
      simp [mem_pre_afterAcquire o w tp _ _ (dockerConnect_mem_fetch w _)]

/-- Options with neither an image name nor an archive file. -/
def oNeither : Opts := ⟨none, "latest", none, "out", false, "entrypoint.sh"⟩

/-- Options with both an image name and an archive file. -/
def oBoth : Opts := ⟨some "img", "latest", some "user.tar", "out", false, "entrypoint.sh"⟩

/-- Options with only a caller-supplied archive file. -/
def oFile : Opts := ⟨none, "latest", some "user.tar", "out", false, "entrypoint.sh"⟩

/-- Options with only an image name. -/
def oImage : Opts := ⟨some "img", "latest", none, "out", false, "entrypoint.sh"⟩

/-- Witness for claim C4: all four input combinations at concrete
options. -/
theorem main_arg_validation_witness :
    main oNeither wAll = ([Event.checkOutDir, Event.createTmp, Event.cleanupTmp],
      Except.error "you must specify either an image name or an archive path.") ∧
    main oBoth wAll = ([Event.checkOutDir, Event.createTmp, Event.cleanupTmp],
      Except.error "you cannot specify both an image name as well as an image file.") ∧
    Event.openFile "user.tar" ∈ (main oFile wAll).1 ∧
    Event.dockerConnect ∈ (main oImage wAll).1 :=
  ⟨(main_arg_validation oNeither wAll rfl rfl).1 rfl rfl,
   (main_arg_validation oBoth wAll rfl rfl).2.1 "img" "user.tar" rfl rfl,
   (main_arg_validation oFile wAll rfl rfl).2.2.1 "user.tar" rfl rfl,
   (main_arg_validation oImage wAll rfl rfl).2.2.2 "img" rfl rfl (by decide)⟩

/-- Claim C7: a run supplying an image reference whose name contains
the version separator fails with the usage error before any
interaction with the daemon: the trace holds no connection, inspect or
export event at all. -/
theorem image_name_colon_rejected (o : Opts) (w : World) (n : String)
    (hdir : w.outIsDir = true) (htmp : w.tmpCreateOk = true)
    (hn : o.image_name = some n) (hf : o.image_file = none)
    (hc : containsColon n = true) :
    main o w = ([Event.checkOutDir, Event.createTmp, Event.cleanupTmp],
      Except.error
        "image name should be the name only - use the --version flag to specify a version.") := by
  simp [main, mainBody, hdir, htmp, hn, hf, hc]

/-- Options whose image name contains the version separator. -/
def oColon : Opts := ⟨some "img:bad", "latest", none, "out", false, "entrypoint.sh"⟩

/-- Witness for claim C7 at a concrete image name containing a colon. -/
theorem image_name_colon_rejected_witness :
    main oColon wAll = ([Event.checkOutDir, Event.createTmp, Event.cleanupTmp],
      Except.error
        "image name should be the name only - use the --version flag to specify a version.") :=
  image_name_colon_rejected oColon wAll "img:bad" rfl rfl rfl rfl (by decide)

/-- Claim C8: when the supplied output path is not an existing
directory the run fails immediately with the usage error; the trace
holds only the directory check, so no scratch area is created, no
daemon is contacted and no file is written. -/
theorem out_path_not_dir (o : Opts) (w : World) (h : w.outIsDir = false) :
    main o w = ([Event.checkOutDir],
      Except.error ("location specified is not a directory: " ++ o.out_path)) := by
  simp [main, h]

/-- A world whose output path is not a directory. -/
def wNoDir : World := { wAll with outIsDir := false }

/-- Witness for claim C8 at concrete options and world. -/
theorem out_path_not_dir_witness :
    main oFile wNoDir = ([Event.checkOutDir],
      Except.error "location specified is not a directory: out") :=
  out_path_not_dir oFile wNoDir rfl

/-- Claim C9: on every exit path, once the scratch area has been
created it is removed by the end of the invocation: whenever the trace
contains the scratch-creation event, its very last event is the
scratch cleanup (mirroring the `Drop` of `TempDir` at the end of
`main`). -/
theorem scratch_cleanup (o : Opts) (w : World) (tr : List Event) (r : Except String Unit)
    (h : main o w = (tr, r)) (hc : Event.createTmp ∈ tr) :
    tr.getLast? = some Event.cleanupTmp := by
  unfold main at h
  by_cases h1 : w.outIsDir = true
  swap
  · rw [if_neg h1] at h
    injection h with ha hb
    subst ha
    simp at hc
  rw [if_pos h1] at h
  by_cases h2 : w.tmpCreateOk = true
  swap
  · rw [if_neg h2] at h
    injection h with ha hb
    subst ha
    simp at hc
  rw [if_pos h2] at h
  injection h with ha hb
  subst ha
  have hsplit :
      Event.checkOutDir :: Event.createTmp :: ((mainBody o w).1 ++ [Event.cleanupTmp]) =
        (Event.checkOutDir :: Event.createTmp :: (mainBody o w).1) ++ [Event.cleanupTmp] := by
    simp
  rw [hsplit, List.getLast?_concat]

/-- Witness for claim C9: a failing run (both inputs supplied) still
ends with the scratch cleanup event. -/
theorem scratch_cleanup_witness :
    (main oBoth wAll).1.getLast? = some Event.cleanupTmp := by
  have h : main oBoth wAll = ([Event.checkOutDir, Event.createTmp, Event.cleanupTmp],
      Except.error "you cannot specify both an image name as well as an image file.") := rfl
  have hres := scratch_cleanup oBoth wAll _ _ h (by decide)
  rw [h]
  exact hres

theorem mem_extract_afterAcquire (o : Opts) (w : World) (tp : String) (pre : List Event)
    (x : Event) (hx : x ∈ (extract_layers w tp w.outInit).1) :
    x ∈ (afterAcquire o w tp pre).1 := by
  unfold afterAcquire
  cases hres : (extract_layers w tp w.outInit).2 with
  | error e =>
    simp only [hres]
    simp [hx]
  | ok mres =>
    simp only [hres]
    by_cases he : o.write_entrypoint = true <;> simp [he, hx]

theorem removeFile_mem_extract (w : World) (tp : String) (d0 : Dir)
    (ho : w.openTarOk tp = true) (hu : w.unpackOuterOk = true) (hr : w.removeOk = true) :
    Event.removeFile tp ∈ (extract_layers w tp d0).1 := by
  unfold extract_layers
  rw [if_pos ho, if_pos hu, if_pos hr]
  by_cases h4 : w.manifestOpenOk = true
  · rw [if_pos h4]
    cases w.manifestJson with
    | none => simp
    | some ms =>
      cases hrm : read_manifest ms with
      | error e => simp [hrm]
      | ok m => simp [hrm]
  · rw [if_neg h4]; simp

theorem createTar_not_mem_applyLayers (openOk : String → Bool) (getTar : String → Option Tar) :
    ∀ (names : List String) (d : Dir) (q : String),
      Event.createTarFile q ∉ (applyLayers openOk getTar names d).1 := by
  intro names
  induction names with
  | nil => intro d q; simp [applyLayers]
  | cons n rest ih =>
    intro d q
    unfold applyLayers
    by_cases hOn : openOk n = true
    · rw [if_pos hOn]
      cases hg : getTar n with
      | some t => simp [ih]
      | none => simp
    · rw [if_neg hOn]; simp

theorem createTar_not_mem_extract (w : World) (tp : String) (d0 : Dir) (q : String) :
    Event.createTarFile q ∉ (extract_layers w tp d0).1 := by
  unfold extract_layers
  split_ifs <;> try simp
  cases w.manifestJson with
  | none => simp
  | some ms =>
    cases hrm : read_manifest ms with
    | error e => simp [hrm]
    | ok m => simp [hrm, createTar_not_mem_applyLayers]

theorem createTar_not_mem_write (w : World) (m : Manifest) (en : String) (q : String) :
    Event.createTarFile q ∉ (write_entrypoint w m en).1 := by
  unfold write_entrypoint
  cases hrc : read_config (w.configOf m.config) with
  | error e => simp [hrc]
  | ok cfg =>
    simp only [hrc]
    split_ifs <;> simp

theorem createTar_not_mem_afterAcquire (o : Opts) (w : World) (tp : String)
    (pre : List Event) (q : String) (hpre : Event.createTarFile q ∉ pre) :
    Event.createTarFile q ∉ (afterAcquire o w tp pre).1 := by
  unfold afterAcquire
  cases hres : (extract_layers w tp w.outInit).2 with
  | error e =>
    simp only [hres]
    simp [hpre, createTar_not_mem_extract]
  | ok mres =>
    simp only [hres]
    by_cases he : o.write_entrypoint = true <;>
      simp [he, hpre, createTar_not_mem_extract, createTar_not_mem_write]

/-- Claim C5, amended: a run given a caller-supplied local archive
path uses that archive as-is (the caller's path itself is opened for
unpacking and no new archive file is ever created), but the archive
does not survive the run: `extract_layers` removes the tar file
unconditionally after unpacking, caller-supplied or downloaded alike
(the `fs::remove_file(&tar_path)` of src/main.rs runs on every path
that reaches it). -/
theorem local_archive_used_as_is_and_removed (o : Opts) (w : World) (p : String)
    (hdir : w.outIsDir = true) (htmp : w.tmpCreateOk = true)
    (hn : o.image_name = none) (hf : o.image_file = some p)
    (ho : w.openTarOk p = true) (hu : w.unpackOuterOk = true) (hr : w.removeOk = true) :
    Event.openFile p ∈ (main o w).1 ∧
    (∀ q, Event.createTarFile q ∉ (main o w).1) ∧
    Event.removeFile p ∈ (main o w).1 := by
  have hmain : main o w =
      (Event.checkOutDir :: Event.createTmp :: ((mainBody o w).1 ++ [Event.cleanupTmp]),
       (mainBody o w).2) := by
    simp [main, hdir, htmp]
  have hbody : mainBody o w = afterAcquire o w p [] := by
    simp [mainBody, hn, hf]
  refine ⟨?_, ?_, ?_⟩
  · rw [hmain, hbody]
    simp [openFile_mem_afterAcquire]
  · intro q
    rw [hmain, hbody]
    have hq := createTar_not_mem_afterAcquire o w p [] q (by simp)
    simp [hq]
  · rw [hmain, hbody]
    have hm := mem_extract_afterAcquire o w p [] (Event.removeFile p)
      (removeFile_mem_extract w p w.outInit ho hu hr)
    simp [hm]

/-- Witness for the amended claim C5 at concrete options and world. -/
theorem local_archive_used_as_is_and_removed_witness :
    Event.openFile "user.tar" ∈ (main oFile wAll).1 ∧
    Event.createTarFile "TMP/x.tar" ∉ (main oFile wAll).1 ∧
    Event.removeFile "user.tar" ∈ (main oFile wAll).1 := by
  have H := local_archive_used_as_is_and_removed oFile wAll "user.tar"
    rfl rfl rfl rfl rfl rfl rfl
  exact ⟨H.1, H.2.1 "TMP/x.tar", H.2.2⟩

/-- Counterexample to claim C5 as stated: on a run given the
caller-supplied archive path `user.tar`, with every external operation
succeeding, the run's trace contains the removal of `user.tar` itself.
The caller-supplied archive does not still exist after unpacking:
deletion is not reserved to freshly-downloaded archives, because
`extract_layers` calls `fs::remove_file` on whatever tar path it was
given (src/main.rs line 130). -/
theorem local_archive_removed_cex :
    Event.removeFile "user.tar" ∈ (main oFile wAll).1 := by decide

/-- Does an event touch the configuration blob or the entrypoint file? -/
def isConfigOrEntry : Event → Bool := fun e =>
  match e with
  | Event.openConfig _ => true
  | Event.createEntrypoint _ => true
  | Event.setPermissions _ _ => true
  | _ => false

theorem configOrEntry_not_in_streamLoop (wOk fOk : Nat → Bool) :
    ∀ (cs : List (Except String Content)) (i : Nat) (x : Event),
      x ∈ (streamLoop wOk fOk cs i).1 → isConfigOrEntry x = false := by
  intro cs
  induction cs with
  | nil => intro i x hx; simp [streamLoop] at hx
  | cons c rest ih =>
    intro i x hx
    unfold streamLoop at hx
    cases c with
    | error e => simp at hx
    | ok data =>
      by_cases hw : wOk i = true
      swap
      · simp [hw] at hx
      by_cases hf : fOk i = true
      swap
      · simp [hw, hf] at hx
        subst hx
        rfl
      simp only [hw, hf, if_true] at hx
      simp only [List.mem_cons] at hx
      rcases hx with rfl | rfl | hx
      · rfl
      · rfl
      · exact ih (i + 1) x hx

theorem configOrEntry_not_in_fetch (w : World) (image : String) (x : Event)
    (hx : x ∈ (fetch_archive w image).1) : isConfigOrEntry x = false := by
  unfold fetch_archive at hx
  by_cases h1 : w.dockerConnectOk = true
  swap
  · rw [if_neg h1] at hx
    simp only [List.mem_cons, List.not_mem_nil, or_false] at hx
    subst hx
    rfl
  rw [if_pos h1] at hx
  by_cases h2 : w.inspectOk image = true
  swap
  · rw [if_neg h2] at hx
    simp only [List.mem_cons, List.not_mem_nil, or_false] at hx
    rcases hx with rfl | rfl <;> rfl
  rw [if_pos h2] at hx
  by_cases h3 : w.createTarOk = true
  swap
  · rw [if_neg h3] at hx
    simp only [List.mem_cons, List.not_mem_nil, or_false] at hx
    rcases hx with rfl | rfl | rfl | rfl <;> rfl
  rw [if_pos h3] at hx
  simp only [List.mem_append, List.mem_cons, List.not_mem_nil, or_false] at hx
  rcases hx with (rfl | rfl | rfl | rfl) | hx
  · rfl
  · rfl
  · rfl
  · rfl
  · exact configOrEntry_not_in_streamLoop w.writeOk w.flushOk _ 0 x hx

theorem configOrEntry_not_in_applyLayers (openOk : String → Bool)
    (getTar : String → Option Tar) :
    ∀ (names : List String) (d : Dir) (x : Event),
      x ∈ (applyLayers openOk getTar names d).1 → isConfigOrEntry x = false := by
  intro names
  induction names with
  | nil => intro d x hx; simp [applyLayers] at hx
  | cons n rest ih =>
    intro d x hx
    unfold applyLayers at hx
    by_cases hOn : openOk n = true
    · rw [if_pos hOn] at hx
      cases hg : getTar n with
      | some t =>
        rw [hg] at hx
        simp only [List.mem_cons] at hx
        rcases hx with rfl | rfl | hx
        · rfl
        · rfl
        · exact ih (unpack t d) x hx
      | none =>
        rw [hg] at hx
        simp only [List.mem_cons, List.not_mem_nil, or_false] at hx
        rcases hx with rfl
        rfl
    · rw [if_neg hOn] at hx
      simp only [List.mem_cons, List.not_mem_nil, or_false] at hx
      rcases hx with rfl
      rfl

theorem configOrEntry_not_in_extract (w : World) (tp : String) (d0 : Dir) (x : Event)
    (hx : x ∈ (extract_layers w tp d0).1) : isConfigOrEntry x = false := by
  unfold extract_layers at hx
  by_cases h1 : w.openTarOk tp = true
  swap
  · rw [if_neg h1] at hx
    simp only [List.mem_cons, List.not_mem_nil, or_false] at hx
    subst hx
    rfl
  rw [if_pos h1] at hx
  by_cases h2 : w.unpackOuterOk = true
  swap
  · rw [if_neg h2] at hx
    simp only [List.mem_cons, List.not_mem_nil, or_false] at hx
    rcases hx with rfl | rfl <;> rfl
  rw [if_pos h2] at hx
  by_cases h3 : w.removeOk = true
  swap
  · rw [if_neg h3] at hx
    simp only [List.mem_cons, List.not_mem_nil, or_false] at hx
    rcases hx with rfl | rfl | rfl <;> rfl
  rw [if_pos h3] at hx
  by_cases h4 : w.manifestOpenOk = true
  swap
  · rw [if_neg h4] at hx
    simp only [List.mem_cons, List.not_mem_nil, or_false] at hx
    rcases hx with rfl | rfl | rfl | rfl <;> rfl
  rw [if_pos h4] at hx
  cases hms : w.manifestJson with
  | none =>
    simp only [hms] at hx
    simp only [List.mem_cons, List.not_mem_nil, or_false] at hx
    rcases hx with rfl | rfl | rfl | rfl <;> rfl
  | some ms =>
    simp only [hms] at hx
    cases hrm : read_manifest ms with
    | error e =>
      simp only [hrm] at hx
      simp only [List.mem_cons, List.not_mem_nil, or_false] at hx
      rcases hx with rfl | rfl | rfl | rfl | rfl <;> rfl
    | ok m =>
      simp only [hrm] at hx
      simp only [List.mem_append, List.mem_cons, List.not_mem_nil, or_false] at hx
      rcases hx with (rfl | rfl | rfl | rfl | rfl) | hx
      · rfl
      · rfl
      · rfl
      · rfl
      · rfl
      · exact configOrEntry_not_in_applyLayers w.layerOpenOk w.layerTar m.layers d0 x hx

theorem afterAcquire_no_entrypoint (o : Opts) (w : World) (tp : String)
    (pre : List Event) (hff : o.write_entrypoint = false) :
    (afterAcquire o w tp pre).1 = pre ++ (extract_layers w tp w.outInit).1 := by
  unfold afterAcquire
  cases hres : (extract_layers w tp w.outInit).2 with
  | error e => simp only [hres]
  | ok mres => simp only [hres, hff, Bool.false_eq_true, if_false]

theorem extract_layers_config_irrel (w : World) (g : String → Option ImageConfig)
    (tp : String) (d0 : Dir) :
    extract_layers { w with configOf := g } tp d0 = extract_layers w tp d0 := rfl

theorem afterAcquire_config_irrel (o : Opts) (w : World) (g : String → Option ImageConfig)
    (tp : String) (pre : List Event) (hff : o.write_entrypoint = false) :
    afterAcquire o { w with configOf := g } tp pre = afterAcquire o w tp pre := by
  unfold afterAcquire
  rw [extract_layers_config_irrel]
  cases hres : (extract_layers w tp w.outInit).2 with
  | error e => simp only [hres]
  | ok mres => simp only [hres, hff, Bool.false_eq_true, if_false]

theorem mainBody_config_irrel (o : Opts) (w : World) (g : String → Option ImageConfig)
    (hff : o.write_entrypoint = false) :
    mainBody o { w with configOf := g } = mainBody o w := by
  cases hn : o.image_name with
  | none =>
    cases hf : o.image_file with
    | none => simp only [mainBody, hn, hf]
    | some p =>
      simp only [mainBody, hn, hf]
      exact afterAcquire_config_irrel o w g p [] hff
  | some n =>
    cases hf : o.image_file with
    | some p => simp only [mainBody, hn, hf]
    | none =>
      simp only [mainBody, hn, hf]
      by_cases hc : containsColon n = true
      · rw [if_pos hc, if_pos hc]
      · rw [if_neg hc, if_neg hc]
        have hfe : fetch_archive { w with configOf := g } (n ++ ":" ++ o.image_version) =
            fetch_archive w (n ++ ":" ++ o.image_version) := rfl
        rw [hfe]
        cases hres : (fetch_archive w (n ++ ":" ++ o.image_version)).2 with
        | error e => simp only [hres]
        | ok tp =>
          simp only [hres]
          rw [afterAcquire_config_irrel o w g tp _ hff]

/-- Claim C10: in a run where the write-entrypoint flag is not set,
the configuration blob is never opened or parsed and no entrypoint
script file is created (the trace holds no config-access,
file-creation or permission event), and the run's outcome is entirely
independent of the config-blob oracle — so a missing or malformed
config blob cannot cause such a run to fail. -/
theorem no_entrypoint_no_config (o : Opts) (w : World) (g : String → Option ImageConfig)
    (hff : o.write_entrypoint = false) :
    (∀ x ∈ (main o w).1, isConfigOrEntry x = false) ∧
    main o { w with configOf := g } = main o w := by
  constructor
  · intro x hx
    unfold main at hx
    split_ifs at hx
    case _ =>
      simp only [List.mem_cons, List.mem_append, List.not_mem_nil, or_false] at hx
      rcases hx with rfl | rfl | hx | rfl
      · rfl
      · rfl
      swap
      · rfl
      cases hn : o.image_name with
      | none =>
        cases hf : o.image_file with
        | none => simp only [mainBody, hn, hf] at hx; simp at hx
        | some p =>
          simp only [mainBody, hn, hf] at hx
          rw [afterAcquire_no_entrypoint o w p [] hff] at hx
          simp only [List.nil_append] at hx
          exact configOrEntry_not_in_extract w p w.outInit x hx
      | some n =>
        cases hf : o.image_file with
        | some p => simp only [mainBody, hn, hf] at hx; simp at hx
        | none =>
          simp only [mainBody, hn, hf] at hx
          by_cases hc : containsColon n = true
          · rw [if_pos hc] at hx; simp at hx
          · rw [if_neg hc] at hx
            cases hres : (fetch_archive w (n ++ ":" ++ o.image_version)).2 with
            | error e =>
              simp only [hres] at hx
              exact configOrEntry_not_in_fetch w _ x hx
            | ok tp =>
              simp only [hres] at hx
              rw [afterAcquire_no_entrypoint o w tp _ hff] at hx
              rcases List.mem_append.mp hx with hx | hx
              · exact configOrEntry_not_in_fetch w _ x hx
              · exact configOrEntry_not_in_extract w tp w.outInit x hx
    case _ =>
      simp only [List.mem_cons, List.not_mem_nil, or_false] at hx
      rcases hx with rfl
      rfl
    case _ =>
      simp only [List.mem_cons, List.not_mem_nil, or_false] at hx
      rcases hx with rfl
      rfl
  · unfold main
    rw [mainBody_config_irrel o w g hff]

/-- Witness for claim C10: with the flag unset, replacing the config
oracle by one where every blob is missing changes nothing about the
run. -/
theorem no_entrypoint_no_config_witness :
    main oFile { wAll with configOf := fun _ => none } = main oFile wAll ∧
    isConfigOrEntry Event.cleanupTmp = false :=
  ⟨(no_entrypoint_no_config oFile wAll (fun _ => none) rfl).2,
   (no_entrypoint_no_config oFile wAll (fun _ => none) rfl).1 Event.cleanupTmp
     (by decide)⟩

/-- The chunk contents written by a trace, in write order. -/
def writesOf (tr : List Event) : List Content :=
  tr.filterMap (fun e => match e with | Event.writeChunk d => some d | _ => none)

/-- The data of the successful items of an export stream, in stream
order. -/
def okDatas (cs : List (Except String Content)) : List Content :=
  cs.filterMap (fun c => match c with | Except.ok d => some d | _ => none)

/-- Is a stream item a successful chunk? -/
def chunkOk (c : Except String Content) : Bool :=
  match c with | Except.ok _ => true | _ => false

/-- The trace of a fully successful stream consumption: each chunk
written and then flushed, in order. -/
def chunkTrace (ds : List Content) : List Event :=
  (ds.map (fun d => [Event.writeChunk d, Event.flush])).flatten

theorem streamLoop_ok (wOk fOk : Nat → Bool) :
    ∀ (cs : List (Except String Content)) (i : Nat) (tr : List Event),
      streamLoop wOk fOk cs i = (tr, Except.ok ()) →
      tr = chunkTrace (okDatas cs) ∧ cs.all chunkOk = true := by
  intro cs
  induction cs with
  | nil =>
    intro i tr h
    simp only [streamLoop, Prod.mk.injEq] at h
    exact ⟨by rw [← h.1]; rfl, rfl⟩
  | cons c rest ih =>
    intro i tr h
    unfold streamLoop at h
    cases c with
    | error e => simp at h
    | ok data =>
      by_cases hw : wOk i = true
      swap
      · simp [hw] at h
      by_cases hf : fOk i = true
      swap
      · simp [hw, hf] at h
      simp only [hw, hf, if_true, Prod.mk.injEq] at h
      obtain ⟨h1, h2⟩ := h
      have hrec := ih (i + 1) (streamLoop wOk fOk rest (i + 1)).1 (by rw [← h2])
      constructor
      · rw [← h1, hrec.1]
        simp [chunkTrace, okDatas, List.filterMap_cons]
      · simp [List.all_cons, chunkOk, hrec.2]

theorem streamLoop_take (wOk fOk : Nat → Bool) :
    ∀ (cs : List (Except String Content)) (i : Nat),
      (okDatas cs).take (writesOf (streamLoop wOk fOk cs i).1).length
        = writesOf (streamLoop wOk fOk cs i).1 := by
  intro cs
  induction cs with
  | nil => intro i; simp [streamLoop, writesOf]
  | cons c rest ih =>
    intro i
    unfold streamLoop
    cases c with
    | error e => simp [writesOf]
    | ok data =>
      by_cases hw : wOk i = true
      swap
      · simp [hw, writesOf]
      by_cases hf : fOk i = true
      swap
      · simp [hw, hf, writesOf, okDatas, List.filterMap_cons]
      simp only [hw, hf, if_true]
      have hrec := ih (i + 1)
      simp only [writesOf, okDatas, List.filterMap_cons] at hrec ⊢
      simpa using hrec

theorem streamLoop_err (wOk fOk : Nat → Bool) :
    ∀ (cs : List (Except String Content)) (i : Nat) (e : String),
      (streamLoop wOk fOk cs i).2 = Except.error e →
      e = "error streaming data from docker" ∨ e = "error writing file to disk" ∨
      e = "could not flush" := by
  intro cs
  induction cs with
  | nil => intro i e h; simp [streamLoop] at h
  | cons c rest ih =>
    intro i e h
    unfold streamLoop at h
    cases c with
    | error msg =>
      simp only [] at h
      simp at h
      exact Or.inl h.symm
    | ok data =>
      by_cases hw : wOk i = true
      swap
      · simp [hw] at h
        exact Or.inr (Or.inl h.symm)
      by_cases hf : fOk i = true
      swap
      · simp [hw, hf] at h
        exact Or.inr (Or.inr h.symm)
      simp only [hw, hf, if_true] at h
      exact ih (i + 1) e h

theorem writesOf_append (a b : List Event) :
    writesOf (a ++ b) = writesOf a ++ writesOf b :=
  List.filterMap_append ..

/-- Claim C6: when fetching from the daemon, every chunk of the export
stream is written sequentially in order with a flush after each chunk
(on success the trace is exactly the acquisition prefix followed by
write/flush pairs for the chunks in stream order; in every case the
written data is a prefix of the stream's data in order, so nothing is
reordered, duplicated or retried), and any failure — daemon
unreachable, image not found, or an I/O failure while streaming or
writing — is fatal with a descriptive message and propagates to the
top of the pipeline, terminating the run with that message. -/
theorem fetch_archive_stream (w : World) (image : String) (tr : List Event)
    (r : Except String String) (h : fetch_archive w image = (tr, r)) :
    (∀ tp, r = Except.ok tp →
      tr = [Event.dockerConnect, Event.inspectImage image, Event.exportImage image,
            Event.createTarFile ("TMP/" ++ image ++ ".tar")]
          ++ chunkTrace (okDatas (w.exportStream image)) ∧
      (w.exportStream image).all chunkOk = true) ∧
    ((okDatas (w.exportStream image)).take (writesOf tr).length = writesOf tr) ∧
    (∀ e, r = Except.error e →
      e = "failed to connect to docker daemon" ∨ e = ("image not found: " ++ image) ∨
      e = "could not create tar file" ∨ e = "error streaming data from docker" ∨
      e = "error writing file to disk" ∨ e = "could not flush") ∧
    (∀ (o : Opts) (n : String) (e : String),
      o.image_name = some n → o.image_file = none → containsColon n = false →
      w.outIsDir = true → w.tmpCreateOk = true →
      image = n ++ ":" ++ o.image_version →
      r = Except.error e → (main o w).2 = Except.error e) := by
  have hprop : ∀ (o : Opts) (n : String) (e : String),
      o.image_name = some n → o.image_file = none → containsColon n = false →
      w.outIsDir = true → w.tmpCreateOk = true →
      image = n ++ ":" ++ o.image_version →
      r = Except.error e → (main o w).2 = Except.error e := by
    intro o n e hn hf hc hdir htmp him hr
    subst him
    subst hr
    simp only [main, hdir, htmp, if_true]
    simp only [mainBody, hn, hf, hc, Bool.false_eq_true, if_false]
    simp only [h]
  refine ⟨?_, ?_, ?_, hprop⟩
  · intro tp htp
    subst htp
    unfold fetch_archive at h
    by_cases h1 : w.dockerConnectOk = true
    swap
    · simp [h1] at h
    by_cases h2 : w.inspectOk image = true
    swap
    · simp [h1, h2] at h
    by_cases h3 : w.createTarOk = true
    swap
    · simp [h1, h2, h3] at h
    simp only [h1, h2, h3, if_true, Prod.mk.injEq] at h
    obtain ⟨h4, h5⟩ := h
    cases hs : (streamLoop w.writeOk w.flushOk (w.exportStream image) 0).2 with
    | error e => rw [hs] at h5; simp [Except.map] at h5
    | ok u =>
      cases u
      have hok := streamLoop_ok w.writeOk w.flushOk (w.exportStream image) 0
        (streamLoop w.writeOk w.flushOk (w.exportStream image) 0).1 (by rw [← hs])
      constructor
      · rw [← h4, hok.1]
      · exact hok.2
  · unfold fetch_archive at h
    by_cases h1 : w.dockerConnectOk = true
    swap
    · simp only [h1, Bool.false_eq_true, if_false, Prod.mk.injEq] at h
      rw [← h.1]
      simp [writesOf]
    by_cases h2 : w.inspectOk image = true
    swap
    · simp only [h1, h2, if_true, Bool.false_eq_true, if_false, Prod.mk.injEq] at h
      rw [← h.1]
      simp [writesOf]
    by_cases h3 : w.createTarOk = true
    swap
    · simp only [h1, h2, h3, if_true, Bool.false_eq_true, if_false, Prod.mk.injEq] at h
      rw [← h.1]
      simp [writesOf]
    simp only [h1, h2, h3, if_true, Prod.mk.injEq] at h
    rw [← h.1, writesOf_append]
    have hpre : writesOf [Event.dockerConnect, Event.inspectImage image,
        Event.exportImage image, Event.createTarFile ("TMP/" ++ image ++ ".tar")] = [] := rfl
    rw [hpre, List.nil_append]
    exact streamLoop_take w.writeOk w.flushOk (w.exportStream image) 0
  · intro e he
    subst he
    unfold fetch_archive at h
    by_cases h1 : w.dockerConnectOk = true
    swap
    · simp only [h1, Bool.false_eq_true, if_false, Prod.mk.injEq] at h
      have h2 := h.2
      simp only [Except.error.injEq] at h2
      exact Or.inl h2.symm
    by_cases h2 : w.inspectOk image = true
    swap
    · simp only [h1, h2, if_true, Bool.false_eq_true, if_false, Prod.mk.injEq] at h
      have h3 := h.2
      simp only [Except.error.injEq] at h3
      exact Or.inr (Or.inl h3.symm)
    by_cases h3 : w.createTarOk = true
    swap
    · simp only [h1, h2, h3, if_true, Bool.false_eq_true, if_false, Prod.mk.injEq] at h
      have h4 := h.2
      simp only [Except.error.injEq] at h4
      exact Or.inr (Or.inr (Or.inl h4.symm))
    simp only [h1, h2, h3, if_true, Prod.mk.injEq] at h
    have h4 := h.2
    cases hs : (streamLoop w.writeOk w.flushOk (w.exportStream image) 0).2 with
    | ok u => rw [hs] at h4; simp [Except.map] at h4
    | error msg =>
      rw [hs] at h4
      simp only [Except.map, Except.error.injEq] at h4
      have hmsg := streamLoop_err w.writeOk w.flushOk (w.exportStream image) 0 msg hs
      rw [← h4]
      rcases hmsg with hm | hm | hm
      · exact Or.inr (Or.inr (Or.inr (Or.inl hm)))
      · exact Or.inr (Or.inr (Or.inr (Or.inr (Or.inl hm))))
      · exact Or.inr (Or.inr (Or.inr (Or.inr (Or.inr hm))))

/-- A world whose export stream has two successful chunks. -/
def wStream : World :=
  { wAll with exportStream := fun _ => [Except.ok "AB", Except.ok "CD"] }

/-- Witness for claim C6: on a two-chunk stream with every operation
succeeding, the trace is the acquisition prefix followed by the two
write/flush pairs in stream order. -/
theorem fetch_archive_stream_witness :
    (fetch_archive wStream "img:latest").1 =
      [Event.dockerConnect, Event.inspectImage "img:latest", Event.exportImage "img:latest",
       Event.createTarFile ("TMP/" ++ "img:latest" ++ ".tar")]
        ++ chunkTrace (okDatas (wStream.exportStream "img:latest")) ∧
    (wStream.exportStream "img:latest").all chunkOk = true := by
  have h : fetch_archive wStream "img:latest" =
      ((fetch_archive wStream "img:latest").1, Except.ok "TMP/img:latest.tar") := rfl
  exact (fetch_archive_stream wStream "img:latest" _ _ h).1 "TMP/img:latest.tar" rfl

end Dext
